import Mathlib

/-!
Verification of the FreeRDP bitmap cache and TLS certificate trust policy.

The definitions below are shallow embeddings of the functions in
`libfreerdp/cache/bitmap.c` and `libfreerdp/crypto/tls.c`.  External
collaborators (OpenSSL, the certificate store, decompression codecs, user
callbacks) are modelled as explicit inputs; machine integers are modelled
as `Nat`/`Int`; logging is modelled as a boolean effect flag where a claim
refers to it.
-/

namespace FreeRDP

/-! ## Bitmap cache (`libfreerdp/cache/bitmap.c`) -/

/-- Decoded bitmap as far as the cache observes it: content key, dimensions
and color depth (`rdpBitmap` fields `key64`, `width`, `height`, `bpp`). -/
structure BitmapM where
  key64 : Nat
  width : Nat
  height : Nat
  bpp : Nat
deriving DecidableEq, Repr

/-- One `BITMAP_V2_CELL`: `number` entries plus the extra waiting-list slot,
so `entries` always has `number + 1` slots (invariant established by
`bitmap_cache_new`, which allocates `nr + 1` entries and sets `number = nr`). -/
structure CellM where
  number : Nat
  entries : List (Option BitmapM)
  hlen : entries.length = number + 1

/-- The cache: an array of cells.  `bitmap_cache_new` sets
`maxCells = BitmapCacheV2NumCells` and allocates exactly that many cells,
so `maxCells` is `cells.length` here. -/
structure BitmapCacheM where
  cells : List CellM

/-- Value of `BITMAP_CACHE_WAITING_LIST_INDEX` (0x7FFF, from
`freerdp/constants.h`; the header itself is not among the sampled sources). -/
def BITMAP_CACHE_WAITING_LIST_INDEX : Nat := 32767

/-- Embedding of `bitmap_cache_get`.  Returns the looked-up slot content and
whether an error was logged (`WLog_ERR` fires exactly on the two out-of-range
paths).  The guard `id >= maxCells` is rendered by `cells.get? id = none`. -/
def bitmap_cache_get (c : BitmapCacheM) (id index : Nat) : Option BitmapM × Bool :=
  match c.cells[id]? with
  | none => (none, true)
  | some cell =>
    if index = BITMAP_CACHE_WAITING_LIST_INDEX then
      (cell.entries.getD cell.number none, false)
    else if index > cell.number then
      (none, true)
    else
      (cell.entries.getD index none, false)

/-- Result of `bitmap_cache_put`: `fail` is the logged-error FALSE return,
`ok` carries the updated cache, and `oob` marks the path where the guard
`id > maxCells` admits `id = maxCells` and the code then accesses
`cells[id]` one past the end of the cells array. -/
inductive PutResult where
  | fail
  | oob
  | ok (c : BitmapCacheM)

/-- Embedding of `bitmap_cache_put`.  Mirrors the source guard `id > maxCells`
(strict, unlike `bitmap_cache_get`); after the guard the code reads
`cells[id].number` and writes `cells[id].entries[index]`, which for
`id = maxCells` is out of bounds (`oob`). -/
def bitmap_cache_put (c : BitmapCacheM) (id index : Nat) (bitmap : BitmapM) : PutResult :=
  if id > c.cells.length then .fail
  else
    match c.cells[id]? with
    | none => .oob
    | some cell =>
      if index = BITMAP_CACHE_WAITING_LIST_INDEX then
        .ok ⟨c.cells.set id ⟨cell.number, cell.entries.set cell.number (some bitmap),
              by simp [cell.hlen]⟩⟩
      else if index > cell.number then .fail
      else
        .ok ⟨c.cells.set id ⟨cell.number, cell.entries.set index (some bitmap),
              by simp [cell.hlen]⟩⟩

/-- A concrete one-cell cache (capacity 1) used to evaluate the put/get
bounds checks at `id = maxCells = 1`. -/
def cacheOneCell : BitmapCacheM := ⟨[⟨1, [none, none], rfl⟩]⟩

/-- A concrete bitmap. -/
def bmpA : BitmapM := ⟨7, 16, 16, 32⟩

/-- C5: at `id = maxCells` (here 1) `bitmap_cache_put` passes its `id > maxCells`
guard and reaches the out-of-bounds access to `cells[id]` instead of returning
the logged failure the claim requires, while `bitmap_cache_get` rejects the same
id with a logged error. -/
theorem bitmap_cache_put_get_asymmetric_at_maxCells :
    bitmap_cache_put cacheOneCell 1 0 bmpA = PutResult.oob ∧
    bitmap_cache_get cacheOneCell 1 0 = (none, true) :=
  ⟨rfl, rfl⟩

/-- A successful `bitmap_cache_put` installs the bitmap at the slot a
subsequent `bitmap_cache_get` with the same `(id, index)` reads back
(the waiting-list alias resolves to the same effective index in both). -/
theorem bitmap_cache_get_after_put (c c' : BitmapCacheM) (id index : Nat) (b : BitmapM)
    (h : bitmap_cache_put c id index b = PutResult.ok c') :
    (bitmap_cache_get c' id index).1 = some b := by
  unfold bitmap_cache_put at h
  split at h
  · cases h
  · rename_i hid
    split at h
    · cases h
    · rename_i cell hcell
      have hlt : id < c.cells.length := by
        by_contra hl
        rw [List.getElem?_eq_none (by omega)] at hcell
        cases hcell
      split at h
      · rename_i hwl
        injection h with h'
        subst h'
        unfold bitmap_cache_get
        rw [List.getElem?_set_eq_of_lt _ hlt]
        simp only [hwl, if_pos rfl]
        rw [List.getD_eq_getElem _ _ (by simp [cell.hlen])]
        simp [List.getElem_set]
      · split at h
        · cases h
        · rename_i hwl hgt
          injection h with h'
          subst h'
          unfold bitmap_cache_get
          rw [List.getElem?_set_eq_of_lt _ hlt]
          simp only [if_neg hwl]
          rw [if_neg (by omega)]
          rw [List.getD_eq_getElem _ _ (by simp [cell.hlen]; omega)]
          simp [List.getElem_set]

/-- C6: for an in-range cell of capacity `n = cell.number`, a put at the
waiting-list index succeeds storing into slot `n`, and both a get at the
waiting-list index and a get at the explicit index `n` return that bitmap. -/
theorem bitmap_cache_waiting_list_roundtrip (c : BitmapCacheM) (id : Nat) (cell : CellM)
    (b : BitmapM) (h : c.cells[id]? = some cell) :
    ∃ c', bitmap_cache_put c id BITMAP_CACHE_WAITING_LIST_INDEX b = PutResult.ok c' ∧
      (bitmap_cache_get c' id BITMAP_CACHE_WAITING_LIST_INDEX).1 = some b ∧
      (bitmap_cache_get c' id cell.number).1 = some b := by
  have hlt : id < c.cells.length := by
    by_contra hl
    rw [List.getElem?_eq_none (by omega)] at h
    cases h
  refine ⟨⟨c.cells.set id ⟨cell.number, cell.entries.set cell.number (some b),
      by simp [cell.hlen]⟩⟩, ?_, ?_, ?_⟩
  · unfold bitmap_cache_put
    rw [if_neg (by omega), h]
    simp
  · unfold bitmap_cache_get
    rw [List.getElem?_set_eq_of_lt _ hlt]
    simp only [if_pos rfl]
    rw [List.getD_eq_getElem _ _ (by simp [cell.hlen])]
    simp [List.getElem_set]
  · unfold bitmap_cache_get
    rw [List.getElem?_set_eq_of_lt _ hlt]
    by_cases hwl : cell.number = BITMAP_CACHE_WAITING_LIST_INDEX
    · simp only [if_pos hwl]
      rw [List.getD_eq_getElem _ _ (by simp [cell.hlen])]
      simp [List.getElem_set]
    · simp only [if_neg hwl]
      rw [if_neg (by omega)]
      rw [List.getD_eq_getElem _ _ (by simp [cell.hlen])]
      simp [List.getElem_set]

/-- A concrete cache: one cell of capacity 10 (spec scenario 4). -/
def cacheCap10 : BitmapCacheM := ⟨[⟨10, List.replicate 11 none, rfl⟩]⟩

/-- Witness for C6 at cell 0, capacity 10. -/
theorem bitmap_cache_waiting_list_roundtrip_witness :
    ∃ c', bitmap_cache_put cacheCap10 0 BITMAP_CACHE_WAITING_LIST_INDEX bmpA = PutResult.ok c' ∧
      (bitmap_cache_get c' 0 BITMAP_CACHE_WAITING_LIST_INDEX).1 = some bmpA ∧
      (bitmap_cache_get c' 0 (10 : Nat)).1 = some bmpA :=
  bitmap_cache_waiting_list_roundtrip cacheCap10 0 ⟨10, List.replicate 11 none, rfl⟩ bmpA rfl

/-- Effects of the MEMBLT handler observable for the claims: whether the
downstream `MemBlt` callback ran and whether an error-level log was emitted. -/
structure MembltEffects where
  membltCalled : Bool
  errorLogged : Bool
deriving DecidableEq, Repr

/-- Embedding of `update_gdi_memblt`.  `offscreenGet` models
`offscreen_cache_get` (external collaborator), `hasMembltCb`/`membltCbResult`
model `cache->bitmap->MemBlt` and `IFCALLRESULT(TRUE, ...)`.  The source casts
`cacheId` to `BYTE` before the cache lookup. -/
def update_gdi_memblt (cache : BitmapCacheM) (offscreenGet : Nat → Option BitmapM)
    (hasMembltCb membltCbResult : Bool) (cacheId cacheIndex : Nat) : Bool × MembltEffects :=
  let lookup : Option BitmapM × Bool :=
    if cacheId = 255 then (offscreenGet cacheIndex, false)
    else bitmap_cache_get cache (cacheId % 256) cacheIndex
  match lookup with
  | (none, logged) => (true, ⟨false, logged⟩)
  | (some _, logged) => ((if hasMembltCb then membltCbResult else true), ⟨hasMembltCb, logged⟩)

/-- C7: a MEMBLT referencing an in-range cell and index whose slot is empty
returns success, does not invoke the drawing callback, and logs no error. -/
theorem update_gdi_memblt_cache_miss_absorbed (cache : BitmapCacheM)
    (offscreenGet : Nat → Option BitmapM) (hasMembltCb membltCbResult : Bool)
    (cacheId cacheIndex : Nat) (cell : CellM)
    (hid : cacheId ≠ 255)
    (hcell : cache.cells[cacheId % 256]? = some cell)
    (hidx : cacheIndex = BITMAP_CACHE_WAITING_LIST_INDEX ∨ cacheIndex ≤ cell.number)
    (hslot : cell.entries.getD
      (if cacheIndex = BITMAP_CACHE_WAITING_LIST_INDEX then cell.number else cacheIndex)
      none = none) :
    update_gdi_memblt cache offscreenGet hasMembltCb membltCbResult cacheId cacheIndex =
      (true, ⟨false, false⟩) := by
  have hget : bitmap_cache_get cache (cacheId % 256) cacheIndex = (none, false) := by
    unfold bitmap_cache_get
    rw [hcell]
    dsimp only
    by_cases hwl : cacheIndex = BITMAP_CACHE_WAITING_LIST_INDEX
    · rw [if_pos hwl]
      rw [if_pos hwl] at hslot
      exact congrArg (fun o => (o, false)) hslot
    · rw [if_neg hwl]
      rw [if_neg hwl] at hslot
      have hle : cacheIndex ≤ cell.number := hidx.resolve_left hwl
      rw [if_neg (by omega)]
      exact congrArg (fun o => (o, false)) hslot
  unfold update_gdi_memblt
  rw [if_neg hid, hget]

/-- A concrete cache with three cells: cells 0 and 1 of capacity 1, cell 2 of
capacity 8 with nothing installed (spec scenario 5 references cell 2, index 7). -/
def cacheThreeCells : BitmapCacheM :=
  ⟨[⟨1, [none, none], rfl⟩, ⟨1, [none, none], rfl⟩, ⟨8, List.replicate 9 none, rfl⟩]⟩

/-- Witness for C7: MEMBLT on `(cell 2, index 7)` with nothing installed. -/
theorem update_gdi_memblt_cache_miss_absorbed_witness :
    update_gdi_memblt cacheThreeCells (fun _ => none) true true 2 7 = (true, ⟨false, false⟩) :=
  update_gdi_memblt_cache_miss_absorbed cacheThreeCells (fun _ => none) true true 2 7
    ⟨8, List.replicate 9 none, rfl⟩ (by decide) rfl (Or.inr (by decide)) (by decide)

/-- Wire fields of a `CACHE_BITMAP_V2_ORDER` used by the handler. -/
structure CacheBitmapV2Order where
  cacheId : Nat
  cacheIndex : Nat
  key1 : Nat
  key2 : Nat
  bitmapBpp : Nat
  bitmapWidth : Nat
  bitmapHeight : Nat
deriving DecidableEq, Repr

/-- Embedding of `update_gdi_cache_bitmap_v2`.  `setDimOk`, `decompressOk` and
`newOk` model the success of `Bitmap_SetDimensions`, `bitmap->Decompress` and
`bitmap->New`; `Decompress` consumes the (possibly rewritten) `bitmapBpp`, so
the installed bitmap records it.  Allocation failure and the freeing of the
previous occupant are not modelled; a FALSE return (including the collapsed
out-of-bounds put) is `none`. -/
def update_gdi_cache_bitmap_v2 (colorDepth : Nat) (setDimOk decompressOk newOk : Bool)
    (cache : BitmapCacheM) (o : CacheBitmapV2Order) : Option BitmapCacheM :=
  if ¬ setDimOk then none
  else if ¬ decompressOk then none
  else if ¬ newOk then none
  else
    let key64 := o.key1 + o.key2 * 2 ^ 32
    let bpp1 := if o.bitmapBpp = 0 then colorDepth else o.bitmapBpp
    let bpp2 := if colorDepth = 15 ∧ bpp1 = 16 then colorDepth else bpp1
    match bitmap_cache_put cache o.cacheId o.cacheIndex
      ⟨key64, o.bitmapWidth, o.bitmapHeight, bpp2⟩ with
    | .ok c => some c
    | _ => none

/-- C8: when the CacheBitmapV2 handler succeeds, the stored bitmap's depth is
the order's `bitmapBpp` normalized as the claim states: zero inherits the
session color depth, and 16 is coerced to 15 on a 15-bpp session. -/
theorem update_gdi_cache_bitmap_v2_bpp_normalized (colorDepth : Nat)
    (setDimOk decompressOk newOk : Bool) (cache c' : BitmapCacheM) (o : CacheBitmapV2Order)
    (h : update_gdi_cache_bitmap_v2 colorDepth setDimOk decompressOk newOk cache o = some c') :
    (bitmap_cache_get c' o.cacheId o.cacheIndex).1 =
      some ⟨o.key1 + o.key2 * 2 ^ 32, o.bitmapWidth, o.bitmapHeight,
        if o.bitmapBpp = 0 then colorDepth
        else if colorDepth = 15 ∧ o.bitmapBpp = 16 then 15
        else o.bitmapBpp⟩ := by
  have hbpp :
      (if colorDepth = 15 ∧ (if o.bitmapBpp = 0 then colorDepth else o.bitmapBpp) = 16
       then colorDepth else (if o.bitmapBpp = 0 then colorDepth else o.bitmapBpp)) =
      (if o.bitmapBpp = 0 then colorDepth
       else if colorDepth = 15 ∧ o.bitmapBpp = 16 then 15 else o.bitmapBpp) := by
    by_cases h0 : o.bitmapBpp = 0
    · simp [h0]
    · by_cases h16 : o.bitmapBpp = 16
      · by_cases h15 : colorDepth = 15
        · simp [h0, h16, h15]
        · simp [h0, h16, h15]
      · simp [h0, h16]
  unfold update_gdi_cache_bitmap_v2 at h
  split at h
  · cases h
  · split at h
    · cases h
    · split at h
      · cases h
      · dsimp only at h
        rw [hbpp] at h
        generalize (if o.bitmapBpp = 0 then colorDepth
          else if colorDepth = 15 ∧ o.bitmapBpp = 16 then 15 else o.bitmapBpp) = nb at h ⊢
        split at h
        · rename_i c'' hput
          injection h with h'
          subst h'
          exact bitmap_cache_get_after_put cache c'' o.cacheId o.cacheIndex _ hput
        · cases h

/-- Witness for C8 (spec scenario 6): session color depth 15, order claims
bpp 16; the stored bitmap has bpp 15. -/
theorem update_gdi_cache_bitmap_v2_bpp_normalized_witness :
    (bitmap_cache_get
      ⟨[⟨1, [some ⟨1, 4, 4, 15⟩, none], rfl⟩]⟩ 0 0).1 = some ⟨1, 4, 4, 15⟩ :=
  update_gdi_cache_bitmap_v2_bpp_normalized 15 true true true cacheOneCell
    ⟨[⟨1, [some ⟨1, 4, 4, 15⟩, none], rfl⟩]⟩ ⟨0, 0, 1, 0, 16, 4, 4⟩ rfl

/-! ## Hostname matching (`tls_match_hostname`, `libfreerdp/crypto/tls.c`) -/

/-- ASCII lower-casing as done by `_strnicmp` in the C locale. -/
def asciiLower (c : Char) : Char :=
  if 'A' ≤ c ∧ c ≤ 'Z' then Char.ofNat (c.toNat + 32) else c

/-- Case-fold a character list. -/
def lowerList (l : List Char) : List Char := l.map asciiLower

/-- Model of `_strnicmp(a, b, n) == 0`: the first `n` characters compare
equal case-insensitively (shorter strings end at their terminator, which is
captured by `take` producing lists of different lengths). -/
def strnicaseEq (a b : List Char) (n : Nat) : Bool :=
  lowerList (a.take n) == lowerList (b.take n)

/-- Embedding of `tls_match_hostname`.  `pattern_length` is the length of the
pattern list (the callers pass the name's length). -/
def tls_match_hostname (pattern hostname : List Char) : Bool :=
  let pl := pattern.length
  if hostname.length = pl ∧ strnicaseEq hostname pattern pl = true then true
  else if 2 < pl ∧ pattern[0]? = some '*' ∧ pattern[1]? = some '.' ∧ pl ≤ hostname.length ∧
      strnicaseEq (hostname.drop (hostname.length - pl + 1)) (pattern.drop 1) (pl - 1) = true
  then true
  else false

/-- The claim's reading of the wildcard rule (refinement reference, written
from the spec's words): a `*.`-pattern matches exactly the hostnames made of
one nonempty dot-free label followed by the remainder of the pattern after
the `*`, case-insensitively. -/
def claimed_single_label_match (pattern hostname : List Char) : Bool :=
  (lowerList pattern == lowerList hostname) ||
  (match pattern with
   | '*' :: '.' :: q =>
     let cut := hostname.length - (q.length + 1)
     decide (q.length + 2 ≤ hostname.length) &&
     !((hostname.take cut).isEmpty) && !((hostname.take cut).contains '.') &&
     (lowerList (hostname.drop cut) == lowerList ('.' :: q))
   | _ => false)

/-- C4 counterexample: the code's wildcard branch is a bare suffix comparison,
so `*.example.com` also matches the multi-label host `a.b.example.com`,
which the claimed single-label rule rejects. -/
theorem tls_match_hostname_multilabel_counterexample :
    tls_match_hostname ('*' :: '.' :: ("example.com".toList)) ("a.b.example.com".toList) = true ∧
    claimed_single_label_match
      ('*' :: '.' :: ("example.com".toList)) ("a.b.example.com".toList) = false := by
  constructor
  · decide
  · decide

/-- C4 (amended): `tls_match_hostname` returns true exactly when the pattern
equals the hostname case-insensitively, or the pattern is `*.q` with `q`
nonempty and the hostname, case-folded, is any nonempty prefix (dots allowed)
followed by `.q` case-folded. -/
theorem tls_match_hostname_characterization (pattern hostname : List Char) :
    tls_match_hostname pattern hostname = true ↔
      lowerList pattern = lowerList hostname ∨
      ∃ q rest, pattern = '*' :: '.' :: q ∧ q ≠ [] ∧ rest ≠ [] ∧
        lowerList hostname = rest ++ lowerList ('.' :: q) := by
  constructor
  · intro h
    unfold tls_match_hostname at h
    dsimp only at h
    split_ifs at h with h1 h2
    · left
      obtain ⟨hlen, heq⟩ := h1
      unfold strnicaseEq at heq
      rw [List.take_of_length_le (le_of_eq hlen), List.take_length] at heq
      exact (beq_iff_eq.mp heq).symm
    · right
      obtain ⟨hpl, h0, hdot, hlen, hsuf⟩ := h2
      rcases pattern with _ | ⟨a, pattern1⟩
      · simp at h0
      rcases pattern1 with _ | ⟨b, q⟩
      · simp at hdot
      have ha : a = '*' := by simpa using h0
      have hb : b = '.' := by simpa using hdot
      subst ha
      subst hb
      simp only [List.length_cons] at hpl hlen hsuf
      have hlc : q.length + 2 ≤ hostname.length := by omega
      refine ⟨q, lowerList (hostname.take (hostname.length - (q.length + 2) + 1)),
        rfl, ?_, ?_, ?_⟩
      · intro hqe
        subst hqe
        simp at hpl
      · intro habs
        have := congrArg List.length habs
        simp only [lowerList, List.length_map, List.length_take, List.length_nil] at this
        omega
      · unfold strnicaseEq at hsuf
        simp only [Nat.add_sub_cancel] at hsuf
        have hdl : (hostname.drop (hostname.length - (q.length + 1 + 1) + 1)).length
            = q.length + 1 := by
          simp only [List.length_drop]
          omega
        rw [List.take_of_length_le (le_of_eq hdl)] at hsuf
        have hql : (('*' :: '.' :: q).drop 1).take (q.length + 1) = '.' :: q := by
          simp
        rw [hql] at hsuf
        have hsplit := List.take_append_drop
          (hostname.length - (q.length + 1 + 1) + 1) hostname
        have hcut : hostname.length - (q.length + 1 + 1) + 1
            = hostname.length - (q.length + 2) + 1 := by omega
        calc lowerList hostname
            = lowerList (hostname.take (hostname.length - (q.length + 1 + 1) + 1)
                ++ hostname.drop (hostname.length - (q.length + 1 + 1) + 1)) := by
              rw [hsplit]
          _ = lowerList (hostname.take (hostname.length - (q.length + 2) + 1))
                ++ lowerList (hostname.drop (hostname.length - (q.length + 1 + 1) + 1)) := by
              rw [← hcut]
              simp [lowerList]
          _ = lowerList (hostname.take (hostname.length - (q.length + 2) + 1))
                ++ lowerList ('.' :: q) := by rw [beq_iff_eq.mp hsuf]
  · intro h
    rcases h with heq | ⟨q, rest, hp, hq, hrest, hlow⟩
    · unfold tls_match_hostname
      dsimp only
      have hlen : hostname.length = pattern.length := by
        have h1 : pattern.length = hostname.length := by
          simpa [lowerList] using congrArg List.length heq
        exact h1.symm
      have hs : strnicaseEq hostname pattern pattern.length = true := by
        unfold strnicaseEq
        rw [List.take_of_length_le (le_of_eq hlen), List.take_length]
        exact beq_iff_eq.mpr heq.symm
      rw [if_pos ⟨hlen, hs⟩]
    · subst hp
      have hrl : 1 ≤ rest.length := by
        rcases rest with _ | ⟨a, r⟩
        · exact absurd rfl hrest
        · simp
      have hhl : hostname.length = rest.length + (q.length + 1) := by
        have h1 : hostname.length = rest.length + (q.length + 1) := by
          simpa [lowerList] using congrArg List.length hlow
        exact h1
      have hc2 : 2 < ('*' :: '.' :: q).length ∧
          ('*' :: '.' :: q)[0]? = some '*' ∧ ('*' :: '.' :: q)[1]? = some '.' ∧
          ('*' :: '.' :: q).length ≤ hostname.length ∧
          strnicaseEq (hostname.drop (hostname.length - ('*' :: '.' :: q).length + 1))
            (('*' :: '.' :: q).drop 1) (('*' :: '.' :: q).length - 1) = true := by
        refine ⟨?_, by simp, by simp, ?_, ?_⟩
        · rcases q with _ | ⟨a, r⟩
          · exact absurd rfl hq
          · simp
        · simp only [List.length_cons]
          omega
        · unfold strnicaseEq
          simp only [List.length_cons, Nat.add_sub_cancel]
          have hdrop : hostname.length - (q.length + 1 + 1) + 1 = rest.length := by omega
          rw [hdrop]
          have hdl : (hostname.drop rest.length).length = q.length + 1 := by
            simp only [List.length_drop]
            omega
          rw [List.take_of_length_le (le_of_eq hdl)]
          have hql : (('*' :: '.' :: q).drop 1).take (q.length + 1) = '.' :: q := by
            simp
          rw [hql]
          refine beq_iff_eq.mpr ?_
          have hmd : lowerList (hostname.drop rest.length)
              = (lowerList hostname).drop rest.length := by
            simp [lowerList]
          rw [hmd, hlow, List.drop_left]
      unfold tls_match_hostname
      dsimp only
      split_ifs with h1 <;> rfl

/-! ## `freerdp_tls_write_all` (`libfreerdp/crypto/tls.c`) -/

/-- Environment outcome of one iteration of the retry loop in
`freerdp_tls_write_all`: what `BIO_write` and the subsequent
`BIO_should_retry` / `BIO_write_blocked` / `BIO_wait_write` /
`BIO_read_blocked` queries report. -/
inductive BioStep where
  /-- `BIO_write` returned the positive count `n`. -/
  | written (n : Nat)
  /-- nonpositive status and `BIO_should_retry` false. -/
  | fatal
  /-- retryable and write-blocked; the flag is whether `BIO_wait_write`
  (100 ms bound) returned without error. -/
  | writeBlocked (waitOk : Bool)
  /-- retryable and read-blocked (TLS renegotiation wants input first). -/
  | readBlocked
  /-- retryable, neither blocked: `USleep(100)` and retry. -/
  | neither
deriving DecidableEq, Repr

/-- The retry loop of `freerdp_tls_write_all`, consuming one `BioStep` per
iteration; `none` means the environment trace ended with the loop still
running. -/
def freerdp_tls_write_all_loop : List BioStep → Nat → Nat → Option Int
  | steps, offset, length =>
    if offset < length then
      match steps with
      | [] => none
      | .written n :: rest => freerdp_tls_write_all_loop rest (offset + n) length
      | .fatal :: _ => some (-1)
      | .writeBlocked waitOk :: rest =>
        if waitOk then freerdp_tls_write_all_loop rest offset length else some (-1)
      | .readBlocked :: _ => some (-2)
      | .neither :: rest => freerdp_tls_write_all_loop rest offset length
    else some (Int.ofNat length)

/-- Embedding of `freerdp_tls_write_all`.  `abortSignaled` is the state of the
session's abort event (reachable from `tls->context`) at each iteration; the
function body never consults it — faithful to the source, whose loop only
queries the BIO. -/
def freerdp_tls_write_all (abortSignaled : Nat → Bool) (steps : List BioStep)
    (length : Nat) : Option Int :=
  if length > 2147483647 then some (-1)
  else freerdp_tls_write_all_loop steps 0 length

/-- C9 counterexample: with the abort event signaled before and during every
iteration, a write that blocks once and then completes still returns success
(the full length); the loop does not return failure at the next iteration
after the abort fires. -/
theorem freerdp_tls_write_all_ignores_abort_counterexample :
    freerdp_tls_write_all (fun _ => true) [BioStep.writeBlocked true, BioStep.written 2] 2
      = some 2 ∧ (2 : Int) ≠ -1 := by
  constructor
  · rfl
  · decide

/-- Result characterization for the loop: any produced result is the fatal
error, the read-blocked indicator, or the full requested length. -/
theorem freerdp_tls_write_all_loop_results (steps : List BioStep) (offset length : Nat)
    (r : Int) (h : freerdp_tls_write_all_loop steps offset length = some r) :
    r = -1 ∨ r = -2 ∨ r = Int.ofNat length := by
  induction steps generalizing offset with
  | nil =>
    unfold freerdp_tls_write_all_loop at h
    split at h
    · cases h
    · right; right
      exact (Option.some.inj h).symm
  | cons s rest ih =>
    unfold freerdp_tls_write_all_loop at h
    split at h
    · cases s with
      | written n =>
        dsimp only at h
        exact ih _ h
      | fatal =>
        dsimp only at h
        left
        exact (Option.some.inj h).symm
      | writeBlocked waitOk =>
        dsimp only at h
        by_cases hw : waitOk = true
        · rw [if_pos hw] at h
          exact ih _ h
        · rw [if_neg hw] at h
          left
          exact (Option.some.inj h).symm
      | readBlocked =>
        dsimp only at h
        right; left
        exact (Option.some.inj h).symm
      | neither =>
        dsimp only at h
        exact ih _ h
    · right; right
      exact (Option.some.inj h).symm

/-- C9 (amended): `freerdp_tls_write_all` never consults the abort handle —
its result is identical under any two abort-signal assignments — and a
completed call yields `-1` (fatal), `-2` (must read first) or the full
length. -/
theorem freerdp_tls_write_all_abort_independent (a b : Nat → Bool) (steps : List BioStep)
    (length : Nat) :
    freerdp_tls_write_all a steps length = freerdp_tls_write_all b steps length ∧
    (∀ r : Int, freerdp_tls_write_all a steps length = some r →
      r = -1 ∨ r = -2 ∨ r = Int.ofNat length) := by
  constructor
  · rfl
  · intro r h
    unfold freerdp_tls_write_all at h
    split at h
    · left; exact (Option.some.inj h).symm
    · exact freerdp_tls_write_all_loop_results steps 0 length r h

/-- Witness for the amended C9 at a concrete trace: a three-byte write that
succeeds in one iteration, under two different abort assignments. -/
theorem freerdp_tls_write_all_abort_independent_witness :
    (freerdp_tls_write_all (fun _ => true) [BioStep.written 3] 3
      = freerdp_tls_write_all (fun _ => false) [BioStep.written 3] 3) ∧
    ((3 : Int) = -1 ∨ (3 : Int) = -2 ∨ (3 : Int) = Int.ofNat 3) :=
  ⟨(freerdp_tls_write_all_abort_independent (fun _ => true) (fun _ => false)
      [BioStep.written 3] 3).1,
   (freerdp_tls_write_all_abort_independent (fun _ => true) (fun _ => false)
      [BioStep.written 3] 3).2 3 rfl⟩

/-! ## Channel bindings (`tls_get_channel_bindings`, `libfreerdp/crypto/tls.c`) -/

/-- Hash algorithms relevant to `freerdp_certificate_get_signature_alg`
(`WINPR_MD_TYPE`); `unknownAlg` stands for any value
`winpr_md_type_to_string` cannot name. -/
inductive WinprMdType where
  | md5
  | sha1
  | sha224
  | sha256
  | sha384
  | sha512
  | unknownAlg
deriving DecidableEq, Repr

/-- Modelled from the spec: `winpr_md_type_to_string` (WinPR, not among the
sampled sources) maps a digest type to its name, or NULL for an unsupported
value. -/
def winpr_md_type_to_string : WinprMdType → Option String
  | .md5 => some ("md5")
  | .sha1 => some ("sha1")
  | .sha224 => some ("sha224")
  | .sha256 => some ("sha256")
  | .sha384 => some ("sha384")
  | .sha512 => some ("sha512")
  | .unknownAlg => none

/-- Certificate as `tls_get_channel_bindings` observes it: its signature
algorithm (`freerdp_certificate_get_signature_alg`) and its digest by hash
name (`freerdp_certificate_get_hash`, `none` when the hash is unavailable). -/
structure CertSig where
  sigAlg : WinprMdType
  hashOf : String → Option (List Nat)

/-- ASCII bytes of the fixed `TLS_SERVER_END_POINT` prefix
`"tls-server-end-point:"`. -/
def tlsServerEndPointBytes : List Nat :=
  ("tls-server-end-point:").data.map Char.toNat

/-- Assembly of the token buffer: `SEC_CHANNEL_BINDINGS` header (32 bytes) plus
prefix plus digest must fit `UINT32_MAX`; the application data is the prefix
followed by the digest. -/
def channel_binding_token (digest : List Nat) : Option (List Nat) :=
  if 32 + (tlsServerEndPointBytes.length + digest.length) > 4294967295 then none
  else some (tlsServerEndPointBytes ++ digest)

/-- Embedding of `tls_get_channel_bindings`: pick SHA-256 for MD5/SHA-1
signatures and the certificate's own signature hash otherwise, hash the
certificate, and prepend the ASCII prefix.  Allocation failures are not
modelled. -/
def tls_get_channel_bindings (cert : CertSig) : Option (List Nat) :=
  match (match cert.sigAlg with
         | .md5 => winpr_md_type_to_string .sha256
         | .sha1 => winpr_md_type_to_string .sha256
         | alg => winpr_md_type_to_string alg) with
  | none => none
  | some hname =>
    match cert.hashOf hname with
    | none => none
    | some digest => channel_binding_token digest

/-- C3: a successfully computed channel-binding token is the ASCII prefix
`"tls-server-end-point:"` followed by the certificate hash, where the hash
algorithm is SHA-256 for MD5/SHA-1-signed certificates and the certificate's
own signature hash algorithm otherwise. -/
theorem tls_get_channel_bindings_token_shape (cert : CertSig) (tok : List Nat)
    (h : tls_get_channel_bindings cert = some tok) :
    ∃ hname digest,
      winpr_md_type_to_string
        (if cert.sigAlg = .md5 ∨ cert.sigAlg = .sha1 then .sha256 else cert.sigAlg)
        = some hname ∧
      cert.hashOf hname = some digest ∧
      tok = tlsServerEndPointBytes ++ digest := by
  unfold tls_get_channel_bindings at h
  cases hs : cert.sigAlg with
  | md5 =>
    rw [hs] at h
    dsimp only [winpr_md_type_to_string] at h
    rcases hd : cert.hashOf ("sha256") with _ | digest <;> rw [hd] at h <;> dsimp only at h
    · cases h
    · unfold channel_binding_token at h
      split at h
      · cases h
      · exact ⟨("sha256"), digest, by simp [hs, winpr_md_type_to_string],
          hd, (Option.some.inj h).symm⟩
  | sha1 =>
    rw [hs] at h
    dsimp only [winpr_md_type_to_string] at h
    rcases hd : cert.hashOf ("sha256") with _ | digest <;> rw [hd] at h <;> dsimp only at h
    · cases h
    · unfold channel_binding_token at h
      split at h
      · cases h
      · exact ⟨("sha256"), digest, by simp [hs, winpr_md_type_to_string],
          hd, (Option.some.inj h).symm⟩
  | sha224 =>
    rw [hs] at h
    dsimp only [winpr_md_type_to_string] at h
    rcases hd : cert.hashOf ("sha224") with _ | digest <;> rw [hd] at h <;> dsimp only at h
    · cases h
    · unfold channel_binding_token at h
      split at h
      · cases h
      · exact ⟨("sha224"), digest, by simp [hs, winpr_md_type_to_string],
          hd, (Option.some.inj h).symm⟩
  | sha256 =>
    rw [hs] at h
    dsimp only [winpr_md_type_to_string] at h
    rcases hd : cert.hashOf ("sha256") with _ | digest <;> rw [hd] at h <;> dsimp only at h
    · cases h
    · unfold channel_binding_token at h
      split at h
      · cases h
      · exact ⟨("sha256"), digest, by simp [hs, winpr_md_type_to_string],
          hd, (Option.some.inj h).symm⟩
  | sha384 =>
    rw [hs] at h
    dsimp only [winpr_md_type_to_string] at h
    rcases hd : cert.hashOf ("sha384") with _ | digest <;> rw [hd] at h <;> dsimp only at h
    · cases h
    · unfold channel_binding_token at h
      split at h
      · cases h
      · exact ⟨("sha384"), digest, by simp [hs, winpr_md_type_to_string],
          hd, (Option.some.inj h).symm⟩
  | sha512 =>
    rw [hs] at h
    dsimp only [winpr_md_type_to_string] at h
    rcases hd : cert.hashOf ("sha512") with _ | digest <;> rw [hd] at h <;> dsimp only at h
    · cases h
    · unfold channel_binding_token at h
      split at h
      · cases h
      · exact ⟨("sha512"), digest, by simp [hs, winpr_md_type_to_string],
          hd, (Option.some.inj h).symm⟩
  | unknownAlg =>
    rw [hs] at h
    dsimp only [winpr_md_type_to_string] at h
    cases h

/-- Witness certificate for C3: SHA-1 signed, with a three-byte SHA-256
digest registered. -/
def certSha1 : CertSig :=
  ⟨.sha1, fun s => if s = "sha256" then some [1, 2, 3] else none⟩

/-- Witness for C3 at `certSha1`: the SHA-1 signature upgrades to SHA-256 and
the token is the prefix followed by that digest. -/
theorem tls_get_channel_bindings_token_shape_witness :
    ∃ hname digest,
      winpr_md_type_to_string
        (if certSha1.sigAlg = .md5 ∨ certSha1.sigAlg = .sha1 then .sha256 else certSha1.sigAlg)
        = some hname ∧
      certSha1.hashOf hname = some digest ∧
      tlsServerEndPointBytes ++ [1, 2, 3] = tlsServerEndPointBytes ++ digest :=
  tls_get_channel_bindings_token_shape certSha1 (tlsServerEndPointBytes ++ [1, 2, 3]) rfl

/-! ## Configuration file policy (`tls_config_check_certificate`,
`libfreerdp/crypto/tls.c`) -/

/-- ASCII lower-casing of a string, for `_stricmp` comparisons. -/
def asciiLowerStr (s : String) : String := String.mk (lowerList s.data)

/-- A valid `certificate-db` entry: the `type` (hash algorithm name) and
`hash` strings. -/
structure DbEntryV where
  type : String
  hash : String

/-- One element of the `certificate-db` array; `none` models an entry that
is not a JSON object or whose `type`/`hash` elements are missing or not
strings (skipped with a warning). -/
abbrev DbEntry := Option DbEntryV

/-- Parsed `certificates.json`: each boolean key is `none` when absent or not
a JSON bool; `certificateDb` is `none` when `certificate-db` is absent or not
an array. -/
structure TlsConfig where
  deny : Option Bool
  ignore : Option Bool
  denyUserconfig : Option Bool
  certificateDb : Option (List DbEntry)

/-- Embedding of `tls_config_parse_bool`: -1 when the key is absent or not a
bool, 1 for true, 0 for false. -/
def tls_config_parse_bool : Option Bool → Int
  | none => -1
  | some true => 1
  | some false => 0

/-- Loop body of `tls_config_check_allowed_hashed` over the `certificate-db`
array: invalid entries and hash types the certificate does not support are
skipped; the first case-insensitive fingerprint match returns 1.
`fp` models `freerdp_certificate_get_fingerprint_by_hash_ex` (without
separators). -/
def tls_config_allowed_hashed_list (fp : String → Option String) : List DbEntry → Int
  | [] => 0
  | none :: rest => tls_config_allowed_hashed_list fp rest
  | some e :: rest =>
    match fp e.type with
    | none => tls_config_allowed_hashed_list fp rest
    | some h =>
      if asciiLowerStr h = asciiLowerStr e.hash then 1
      else tls_config_allowed_hashed_list fp rest

/-- Embedding of `tls_config_check_allowed_hashed`: 0 when `certificate-db`
is absent or not an array, otherwise the scan of its entries. -/
def tls_config_check_allowed_hashed (fp : String → Option String)
    (db : Option (List DbEntry)) : Int :=
  match db with
  | none => 0
  | some l => tls_config_allowed_hashed_list fp l

/-- Embedding of `tls_config_check_certificate`.  Returns the verification
status (`-1` deny, `1` accept, `0` undecided) and `pAllowUserconfig`
(which the source sets to `rc == 0`).  `none` models a missing or invalid
configuration file. -/
def tls_config_check_certificate (fp : String → Option String)
    (json : Option TlsConfig) : Int × Bool :=
  match json with
  | none => (0, true)
  | some cfg =>
    if tls_config_parse_bool cfg.deny > 0 then (-1, false)
    else if tls_config_parse_bool cfg.ignore > 0 then (1, false)
    else if tls_config_check_allowed_hashed fp cfg.certificateDb > 0 then (1, false)
    else if tls_config_parse_bool cfg.denyUserconfig > 0 then (-1, false)
    else (0, true)

/-- The spec's reading of a `certificate-db` match: some valid entry whose
hash equals the certificate's fingerprint under that entry's hash type,
case-insensitively. -/
def dbHasMatch (fp : String → Option String) (l : List DbEntry) : Prop :=
  ∃ e ∈ l, ∃ v : DbEntryV, e = some v ∧
    ∃ h, fp v.type = some h ∧ asciiLowerStr h = asciiLowerStr v.hash

/-- The `certificate-db` scan returns 1 exactly on a match in the spec's
sense (and 0 otherwise). -/
theorem tls_config_allowed_hashed_list_one_iff (fp : String → Option String)
    (l : List DbEntry) :
    tls_config_allowed_hashed_list fp l = 1 ↔ dbHasMatch fp l := by
  induction l with
  | nil =>
    simp [tls_config_allowed_hashed_list, dbHasMatch]
  | cons e rest ih =>
    cases e with
    | none =>
      rw [show tls_config_allowed_hashed_list fp (none :: rest)
          = tls_config_allowed_hashed_list fp rest from rfl]
      rw [ih]
      unfold dbHasMatch
      constructor
      · rintro ⟨e, he, v, hv, hh⟩
        exact ⟨e, List.mem_cons_of_mem _ he, v, hv, hh⟩
      · rintro ⟨e, he, v, hv, hh⟩
        rcases List.mem_cons.mp he with he0 | he1
        · subst he0
          cases hv
        · exact ⟨e, he1, v, hv, hh⟩
    | some v =>
      unfold tls_config_allowed_hashed_list
      rcases hf : fp v.type with _ | h
      · dsimp only
        rw [ih]
        unfold dbHasMatch
        constructor
        · rintro ⟨e, he, w, hw, hh⟩
          exact ⟨e, List.mem_cons_of_mem _ he, w, hw, hh⟩
        · rintro ⟨e, he, w, hw, hh⟩
          rcases List.mem_cons.mp he with he0 | he1
          · subst he0
            obtain ⟨hx, hy, hz⟩ := hh
            injection hw with hw'
            subst hw'
            rw [hf] at hy
            cases hy
          · exact ⟨e, he1, w, hw, hh⟩
      · dsimp only
        by_cases hm : asciiLowerStr h = asciiLowerStr v.hash
        · rw [if_pos hm]
          constructor
          · intro _
            exact ⟨some v, List.mem_cons_self _ _, v, rfl, h, hf, hm⟩
          · intro _
            rfl
        · rw [if_neg hm]
          rw [ih]
          unfold dbHasMatch
          constructor
          · rintro ⟨e, he, w, hw, hh⟩
            exact ⟨e, List.mem_cons_of_mem _ he, w, hw, hh⟩
          · rintro ⟨e, he, w, hw, hh⟩
            rcases List.mem_cons.mp he with he0 | he1
            · subst he0
              obtain ⟨hx, hy, hz⟩ := hh
              injection hw with hw'
              subst hw'
              rw [hf] at hy
              injection hy with hy'
              subst hy'
              exact absurd hz hm
            · exact ⟨e, he1, w, hw, hh⟩

/-- C2: the configuration keys are applied in the fixed order `deny`,
`ignore`, `certificate-db`, `deny-userconfig`: `deny = true` rejects
regardless of the rest (in particular when `ignore` is also true); otherwise
`ignore = true` accepts; otherwise a `certificate-db` match accepts;
otherwise `deny-userconfig = true` rejects and forbids user prompting. -/
theorem tls_config_check_certificate_order (fp : String → Option String) (cfg : TlsConfig) :
    (cfg.deny = some true →
      tls_config_check_certificate fp (some cfg) = (-1, false)) ∧
    (cfg.deny ≠ some true → cfg.ignore = some true →
      tls_config_check_certificate fp (some cfg) = (1, false)) ∧
    (cfg.deny ≠ some true → cfg.ignore ≠ some true →
      (∃ l, cfg.certificateDb = some l ∧ dbHasMatch fp l) →
      tls_config_check_certificate fp (some cfg) = (1, false)) ∧
    (cfg.deny ≠ some true → cfg.ignore ≠ some true →
      ¬ (∃ l, cfg.certificateDb = some l ∧ dbHasMatch fp l) →
      cfg.denyUserconfig = some true →
      tls_config_check_certificate fp (some cfg) = (-1, false)) := by
  have hb : ∀ o : Option Bool, tls_config_parse_bool o > 0 ↔ o = some true := by
    intro o
    rcases o with _ | b
    · simp [tls_config_parse_bool]
    · cases b <;> simp [tls_config_parse_bool]
  have hdb : ∀ db : Option (List DbEntry),
      tls_config_check_allowed_hashed fp db > 0 ↔
        ∃ l, db = some l ∧ dbHasMatch fp l := by
    intro db
    rcases db with _ | l
    · simp [tls_config_check_allowed_hashed]
    · simp only [tls_config_check_allowed_hashed]
      have h01 : tls_config_allowed_hashed_list fp l = 0 ∨
          tls_config_allowed_hashed_list fp l = 1 := by
        induction l with
        | nil => left; rfl
        | cons e rest ih =>
          cases e with
          | none => exact ih
          | some v =>
            unfold tls_config_allowed_hashed_list
            rcases fp v.type with _ | h
            · exact ih
            · dsimp only
              split
              · right; rfl
              · exact ih
      constructor
      · intro hgt
        rcases h01 with h0 | h1
        · rw [h0] at hgt
          exact absurd hgt (by norm_num)
        · exact ⟨l, rfl, (tls_config_allowed_hashed_list_one_iff fp l).mp h1⟩
      · rintro ⟨l', hl', hm⟩
        injection hl' with hl''
        subst hl''
        rw [(tls_config_allowed_hashed_list_one_iff fp l).mpr hm]
        norm_num
  refine ⟨?_, ?_, ?_, ?_⟩
  · intro hdeny
    unfold tls_config_check_certificate
    dsimp only
    rw [if_pos ((hb cfg.deny).mpr hdeny)]
  · intro hdeny hign
    unfold tls_config_check_certificate
    dsimp only
    rw [if_neg (fun hx => hdeny ((hb cfg.deny).mp hx)),
      if_pos ((hb cfg.ignore).mpr hign)]
  · intro hdeny hign hm
    unfold tls_config_check_certificate
    dsimp only
    rw [if_neg (fun hx => hdeny ((hb cfg.deny).mp hx)),
      if_neg (fun hx => hign ((hb cfg.ignore).mp hx)),
      if_pos ((hdb cfg.certificateDb).mpr hm)]
  · intro hdeny hign hm hdu
    unfold tls_config_check_certificate
    dsimp only
    rw [if_neg (fun hx => hdeny ((hb cfg.deny).mp hx)),
      if_neg (fun hx => hign ((hb cfg.ignore).mp hx)),
      if_neg (fun hx => hm ((hdb cfg.certificateDb).mp hx)),
      if_pos ((hb cfg.denyUserconfig).mpr hdu)]

/-- Witness for C2 at a configuration with both `deny` and `ignore` true:
`deny` wins (first conjunct of the order theorem). -/
theorem tls_config_check_certificate_order_witness :
    tls_config_check_certificate (fun _ => none)
      (some ⟨some true, some true, some false, none⟩) = (-1, false) :=
  (tls_config_check_certificate_order (fun _ => none)
    ⟨some true, some true, some false, none⟩).1 rfl

/-! ## Certificate verification (`tls_verify_certificate`,
`libfreerdp/crypto/tls.c`) -/

/-- Observable effects of one run of `tls_verify_certificate`: which user
callbacks were invoked, whether the known-hosts store was consulted
(`freerdp_certificate_store_contains_data`) or written
(`freerdp_certificate_store_save_data`), whether the configuration file,
the chain verification (`freerdp_certificate_verify`) and the hostname
comparison ran, and whether `accept_cert` recorded the PEM in the settings. -/
structure VerifyEffects where
  verifyX509Called : Bool
  verifyCertExCalled : Bool
  verifyChangedCertExCalled : Bool
  storeConsulted : Bool
  storeSaved : Bool
  configConsulted : Bool
  chainVerifyCalled : Bool
  hostnameChecked : Bool
  acceptCertCalled : Bool
deriving DecidableEq, Repr

/-- No effects yet. -/
def noEffects : VerifyEffects := ⟨false, false, false, false, false, false, false, false, false⟩

/-- Inputs of `tls_verify_certificate`: the session state, settings flags,
registered callbacks (with the verdicts they would return), and the results
of the external collaborators (PEM extraction, chain verification,
certificate data, known-hosts lookup, store write). -/
structure VerifyInput where
  /-- `freerdp_shall_disconnect_context`. -/
  shallDisconnect : Bool
  /-- `tls_extract_full_pem` succeeded. -/
  pemOk : Bool
  /-- `is_accepted`: a previously accepted PEM for this transport matches. -/
  accepted : Bool
  /-- `is_accepted_fingerprint` over `CertificateAcceptedFingerprints`. -/
  acceptedFingerprint : Bool
  /-- `tls->isGatewayTransport`. -/
  isGateway : Bool
  /-- settings `ExternalCertificateManagement`. -/
  externalMgmt : Bool
  /-- `instance->VerifyX509Certificate` registered. -/
  hasVerifyX509 : Bool
  /-- verdict `VerifyX509Certificate` returns when invoked. -/
  verifyX509Result : Int
  /-- settings `IgnoreCertificate`. -/
  ignoreCert : Bool
  /-- settings `AuthenticationLevel`. -/
  authLevel : Nat
  /-- settings `CertificateName` (overrides the hostname when set). -/
  certificateName : Option (List Char)
  hostname : List Char
  /-- `freerdp_certificate_verify` against the store's trust anchors. -/
  certificateStatus : Bool
  /-- `freerdp_certificate_data_new` succeeded. -/
  certDataOk : Bool
  /-- `freerdp_certificate_get_common_name`. -/
  commonName : Option (List Char)
  /-- `freerdp_certificate_get_dns_names`. -/
  dnsNames : List (List Char)
  /-- fingerprints by hash name, for the configuration db. -/
  fpByHash : String → Option String
  /-- parsed `certificates.json`, if any. -/
  config : Option TlsConfig
  /-- `freerdp_certificate_get_pem` in the interactive block succeeded. -/
  pem2Ok : Bool
  /-- `freerdp_certificate_store_contains_data`: 1 missing, -1 changed, 0 match. -/
  storeMatch : Int
  /-- settings `AutoAcceptCertificate`. -/
  autoAccept : Bool
  /-- settings `AutoDenyCertificate`. -/
  autoDeny : Bool
  /-- `instance->VerifyCertificateEx` registered. -/
  hasVerifyCertEx : Bool
  /-- verdict `VerifyCertificateEx` returns when invoked. -/
  verifyCertExResult : Nat
  /-- `instance->VerifyChangedCertificateEx` registered. -/
  hasVerifyChangedCertEx : Bool
  /-- verdict `VerifyChangedCertificateEx` returns when invoked. -/
  verifyChangedCertExResult : Nat
  /-- `freerdp_certificate_store_save_data` succeeds. -/
  storeSaveOk : Bool

/-- Embedding of the interactive block of `tls_verify_certificate` (entered
when the configuration leaves the decision to the user and chain or hostname
verification failed): known-hosts lookup, auto-accept/deny policy, user
callbacks, and the final accept/save switch.  `vsIn` is the verification
status on entry (the configuration result, 0 on this path); it is returned
unchanged when PEM extraction fails (`goto end`).  The deprecated
`VerifyCertificate`/`VerifyChangedCertificate` callbacks
(`WITH_FREERDP_DEPRECATED`) are not modelled. -/
def tls_verify_user_block (i : VerifyInput) (vsIn : Int) (e : VerifyEffects) :
    Int × VerifyEffects :=
  if ¬ i.pem2Ok then (vsIn, e)
  else
    let e1 := {e with storeConsulted := true}
    let r : Nat × VerifyEffects :=
      if i.storeMatch = 1 then
        if i.autoAccept then (1, e1)
        else if i.autoDeny then (0, e1)
        else if i.hasVerifyX509 then
          ((if i.verifyX509Result = 1 then 1 else if i.verifyX509Result > 1 then 2 else 0),
            {e1 with verifyX509Called := true})
        else if i.hasVerifyCertEx then
          (i.verifyCertExResult, {e1 with verifyCertExCalled := true})
        else (0, e1)
      else if i.storeMatch = -1 then
        if i.autoDeny then (0, e1)
        else if i.hasVerifyX509 then
          ((if i.verifyX509Result = 1 then 1 else if i.verifyX509Result > 1 then 2 else 0),
            {e1 with verifyX509Called := true})
        else if i.hasVerifyChangedCertEx then
          (i.verifyChangedCertExResult, {e1 with verifyChangedCertExCalled := true})
        else (0, e1)
      else if i.storeMatch = 0 then (2, e1)
      else (0, e1)
    if r.1 = 1 then
      ((if i.storeSaveOk then 1 else -1), {r.2 with storeSaved := true})
    else if r.1 = 2 then (1, r.2)
    else (-1, r.2)

/-- Embedding of `tls_verify_certificate` (client side).  The `VERIFY_CERT_*`
flags only parametrize the callbacks and are not modelled; the deprecated
callbacks are compiled out. -/
def tls_verify_certificate (i : VerifyInput) : Int × VerifyEffects :=
  if i.shallDisconnect then (-1, noEffects)
  else if ¬ i.pemOk then (-1, noEffects)
  else if i.accepted then (1, noEffects)
  else if i.acceptedFingerprint then (1, noEffects)
  else if i.externalMgmt then
    if i.hasVerifyX509 then
      if i.verifyX509Result > 0 then
        (i.verifyX509Result, {noEffects with verifyX509Called := true, acceptCertCalled := true})
      else (i.verifyX509Result, {noEffects with verifyX509Called := true})
    else (-1, noEffects)
  else if i.ignoreCert then (1, noEffects)
  else if i.isGateway = false ∧ i.authLevel = 0 then (1, noEffects)
  else
    let hn := if i.isGateway then i.hostname else i.certificateName.getD i.hostname
    let e1 := {noEffects with chainVerifyCalled := true}
    if ¬ i.certDataOk then (-1, e1)
    else
      let cnMatch := match i.commonName with
                     | some cn => tls_match_hostname cn hn
                     | none => false
      let hostnameMatch := cnMatch || i.dnsNames.any (fun d => tls_match_hostname d hn)
      let e2 := {e1 with hostnameChecked := true}
      if i.certificateStatus && hostnameMatch then
        (1, {e2 with acceptCertCalled := true})
      else
        let cfg := tls_config_check_certificate i.fpByHash i.config
        let e3 := {e2 with configConsulted := true}
        if ¬ cfg.2 then
          if cfg.1 > 0 then (cfg.1, {e3 with acceptCertCalled := true}) else (cfg.1, e3)
        else
          let ub := tls_verify_user_block i cfg.1 e3
          if ub.1 > 0 then (ub.1, {ub.2 with acceptCertCalled := true}) else ub

/-- On a known-hosts match with the interactive block's PEM available, the
block accepts temporarily: status 1, the store consulted but not written,
no callback. -/
theorem tls_verify_user_block_match (i : VerifyInput) (vsIn : Int) (e : VerifyEffects)
    (hm : i.storeMatch = 0) (hp : i.pem2Ok = true) :
    tls_verify_user_block i vsIn e = (1, {e with storeConsulted := true}) := by
  unfold tls_verify_user_block
  rw [if_neg (by simp [hp])]
  dsimp only
  rw [hm]
  norm_num

/-- When the interactive block cannot extract the PEM it returns the entry
status unchanged with no further effects. -/
theorem tls_verify_user_block_no_pem (i : VerifyInput) (vsIn : Int) (e : VerifyEffects)
    (hp : i.pem2Ok = false) :
    tls_verify_user_block i vsIn e = (vsIn, e) := by
  unfold tls_verify_user_block
  rw [if_pos (by simp [hp])]

/-- C1: whenever a run of the verifier consults the known-hosts store and the
lookup reports a match (`freerdp_certificate_store_contains_data` returned 0),
the verifier returns accept (1) without invoking any user callback and
without writing to the store. -/
theorem tls_verify_certificate_store_match_silent_accept (i : VerifyInput)
    (hstore : (tls_verify_certificate i).2.storeConsulted = true)
    (hmatch : i.storeMatch = 0) :
    (tls_verify_certificate i).1 = 1 ∧
    (tls_verify_certificate i).2.verifyX509Called = false ∧
    (tls_verify_certificate i).2.verifyCertExCalled = false ∧
    (tls_verify_certificate i).2.verifyChangedCertExCalled = false ∧
    (tls_verify_certificate i).2.storeSaved = false := by
  unfold tls_verify_certificate at hstore ⊢
  dsimp only at hstore ⊢
  by_cases h1 : i.shallDisconnect = true
  · rw [if_pos h1] at hstore
    exact absurd hstore (by simp [noEffects])
  rw [if_neg h1] at hstore ⊢
  by_cases h2 : ¬ i.pemOk = true
  · rw [if_pos h2] at hstore
    exact absurd hstore (by simp [noEffects])
  rw [if_neg h2] at hstore ⊢
  by_cases h3 : i.accepted = true
  · rw [if_pos h3] at hstore
    exact absurd hstore (by simp [noEffects])
  rw [if_neg h3] at hstore ⊢
  by_cases h4 : i.acceptedFingerprint = true
  · rw [if_pos h4] at hstore
    exact absurd hstore (by simp [noEffects])
  rw [if_neg h4] at hstore ⊢
  by_cases h5 : i.externalMgmt = true
  · rw [if_pos h5] at hstore
    exact absurd hstore (by split_ifs <;> simp [noEffects])
  rw [if_neg h5] at hstore ⊢
  by_cases h6 : i.ignoreCert = true
  · rw [if_pos h6] at hstore
    exact absurd hstore (by simp [noEffects])
  rw [if_neg h6] at hstore ⊢
  by_cases h7 : i.isGateway = false ∧ i.authLevel = 0
  · rw [if_pos h7] at hstore
    exact absurd hstore (by simp [noEffects])
  rw [if_neg h7] at hstore ⊢
  by_cases h8 : ¬ i.certDataOk = true
  · rw [if_pos h8] at hstore
    exact absurd hstore (by simp [noEffects])
  rw [if_neg h8] at hstore ⊢
  generalize (if i.isGateway = true then i.hostname else i.certificateName.getD i.hostname)
    = hn at hstore ⊢
  split at hstore
  · exact absurd hstore (by simp [noEffects])
  rename_i h9
  rw [if_neg h9]
  split at hstore
  · exact absurd hstore (by split_ifs <;> simp [noEffects])
  rename_i h10
  rw [if_neg h10]
  by_cases hp : i.pem2Ok = true
  · rw [tls_verify_user_block_match i _ _ hmatch hp] at hstore ⊢
    simp [noEffects]
  · rw [tls_verify_user_block_no_pem i _ _ (by simpa using hp)] at hstore
    exact absurd hstore (by split_ifs <;> simp [noEffects])

/-- Witness input for C1: defaults that reach the known-hosts lookup (no
early accept, authentication level 1, failed chain verification, no
configuration file) with a matching store entry. -/
def inputStoreMatch : VerifyInput :=
  ⟨false, true, false, false, false, false, false, 0, false, 1, none, [],
    false, true, none, [], fun _ => none, none, true, 0,
    false, false, false, 0, false, 0, true⟩

/-- Witness for C1 at `inputStoreMatch`. -/
theorem tls_verify_certificate_store_match_silent_accept_witness :
    (tls_verify_certificate inputStoreMatch).1 = 1 ∧
    (tls_verify_certificate inputStoreMatch).2.verifyX509Called = false ∧
    (tls_verify_certificate inputStoreMatch).2.verifyCertExCalled = false ∧
    (tls_verify_certificate inputStoreMatch).2.verifyChangedCertExCalled = false ∧
    (tls_verify_certificate inputStoreMatch).2.storeSaved = false :=
  tls_verify_certificate_store_match_silent_accept inputStoreMatch rfl rfl

/-- C10: with external certificate management disabled, ignore-certificate
disabled, a non-gateway transport and `AuthenticationLevel = 0`, the verifier
accepts immediately: no chain verification, no hostname matching, no
configuration file, no known-hosts store, no user callback. -/
theorem tls_verify_certificate_auth_level_zero (i : VerifyInput)
    (h1 : i.shallDisconnect = false) (h2 : i.pemOk = true)
    (h3 : i.externalMgmt = false) (h4 : i.ignoreCert = false)
    (h5 : i.isGateway = false) (h6 : i.authLevel = 0) :
    (tls_verify_certificate i).1 = 1 ∧
    (tls_verify_certificate i).2.chainVerifyCalled = false ∧
    (tls_verify_certificate i).2.hostnameChecked = false ∧
    (tls_verify_certificate i).2.configConsulted = false ∧
    (tls_verify_certificate i).2.storeConsulted = false ∧
    (tls_verify_certificate i).2.verifyX509Called = false ∧
    (tls_verify_certificate i).2.verifyCertExCalled = false ∧
    (tls_verify_certificate i).2.verifyChangedCertExCalled = false ∧
    (tls_verify_certificate i).2.storeSaved = false := by
  unfold tls_verify_certificate
  by_cases ha : i.accepted <;> by_cases hf : i.acceptedFingerprint <;>
    simp [h1, h2, h3, h4, h5, h6, ha, hf, noEffects]

/-- Witness input for C10: authentication level 0, direct transport, no
special settings. -/
def inputAuthZero : VerifyInput :=
  ⟨false, true, false, false, false, false, false, 0, false, 0, none, [],
    false, true, none, [], fun _ => none, none, true, 1,
    false, false, false, 0, false, 0, true⟩

/-- Witness for C10 at `inputAuthZero`. -/
theorem tls_verify_certificate_auth_level_zero_witness :
    (tls_verify_certificate inputAuthZero).1 = 1 ∧
    (tls_verify_certificate inputAuthZero).2.chainVerifyCalled = false ∧
    (tls_verify_certificate inputAuthZero).2.hostnameChecked = false ∧
    (tls_verify_certificate inputAuthZero).2.configConsulted = false ∧
    (tls_verify_certificate inputAuthZero).2.storeConsulted = false ∧
    (tls_verify_certificate inputAuthZero).2.verifyX509Called = false ∧
    (tls_verify_certificate inputAuthZero).2.verifyCertExCalled = false ∧
    (tls_verify_certificate inputAuthZero).2.verifyChangedCertExCalled = false ∧
    (tls_verify_certificate inputAuthZero).2.storeSaved = false :=
  tls_verify_certificate_auth_level_zero inputAuthZero rfl rfl rfl rfl rfl rfl

end FreeRDP
